import Mathlib

/-!
Verification of the go-eventbrite API transport core (category.go, types.go).

The Go code is shallowly embedded: `url.Values` becomes an association list,
the reflection-driven query flattener `toValues` becomes a fold over an
explicit field list, the three executors (`get`, `post`, `delete`) and their
JSON wrappers become pure functions over an environment that resolves the
external effects (context cancellation, the HTTP transport, JSON decoding),
and each call returns its result together with the remaining rate-limiter
permits and the list of observable events (permit consumption, transport
invocations).  Machine integers of the Go code are modelled as Nat/Int;
Go float64/float32 values are modelled as rationals.
-/

namespace Eventbrite

/-! ## url.Values

Model of Go `net/url.Values` as used by this repository: the code only ever
calls `Set` (which replaces the whole value slice by a single value) and
`Encode`, so a key maps to at most one value and an association list
suffices. -/

abbrev Values := List (String × String)

/-- Model of `url.Values.Set`: replace the value of an existing key, or
append the pair when the key is absent. -/
def Values.set : Values → String → String → Values
  | [], k, v => [(k, v)]
  | (k', v') :: rest, k, v =>
    if k' = k then (k, v) :: rest else (k', v') :: Values.set rest k v

/-- Lookup of a key in a `Values` mapping (model of `url.Values.Get`,
returning `none` when absent). -/
def Values.get? : Values → String → Option String
  | [], _ => none
  | (k, v) :: rest, key => if k = key then some v else Values.get? rest key

/-- Hex digit used by percent-encoding (`0`..`9`, `A`..`F`). -/
def hexDigit (n : Nat) : Char :=
  if n < 10 then Char.ofNat (48 + n) else Char.ofNat (55 + n)

/-- Model of Go `url.QueryEscape` on one character: unreserved characters
(alphanumerics and `-_.~`) are kept, space becomes `+`, everything else is
percent-encoded from its code point (faithful for the ASCII data this
library produces). -/
def queryEscapeChar (c : Char) : List Char :=
  if c.isAlphanum || c = '-' || c = '_' || c = '.' || c = '~' then [c]
  else if c = ' ' then ['+']
  else ['%', hexDigit (c.toNat / 16 % 16), hexDigit (c.toNat % 16)]

/-- Model of Go `url.QueryEscape`. -/
def queryEscape (s : String) : String :=
  String.mk (s.toList.map queryEscapeChar).flatten

/-- Lexicographic order on character lists (Go's string `<=`, used by the
key sort inside `url.Values.Encode`). -/
def charListLe : List Char → List Char → Bool
  | [], _ => true
  | _ :: _, [] => false
  | a :: as, b :: bs => if a = b then charListLe as bs else decide (a.toNat < b.toNat)

/-- Insertion into a key-sorted `Values` list. -/
def insertSorted (kv : String × String) : Values → Values
  | [] => [kv]
  | x :: xs => if charListLe kv.1.toList x.1.toList then kv :: x :: xs else x :: insertSorted kv xs

/-- Sort a `Values` list by key (the sort performed by `url.Values.Encode`). -/
def sortByKey (vs : Values) : Values := vs.foldr insertSorted []

/-- Model of `url.Values.Encode`: keys sorted, each pair rendered as
`escape(k)=escape(v)`, joined with `&`. -/
def Values.encode (vs : Values) : String :=
  String.intercalate "&" ((sortByKey vs).map fun kv => queryEscape kv.1 ++ "=" ++ queryEscape kv.2)

/-! ## Decimal rendering (model of strconv) -/

/-- The character of a decimal digit. -/
def digitChar (n : Nat) : Char := Char.ofNat (48 + n % 10)

/-- Accumulating decimal digit production for a positive natural. -/
def natToDecAux : Nat → List Char → List Char
  | 0, acc => acc
  | n + 1, acc => natToDecAux ((n + 1) / 10) (digitChar ((n + 1) % 10) :: acc)
decreasing_by exact Nat.div_lt_self (Nat.succ_pos n) (by decide)

/-- Base-10 rendering of a natural number (model of `strconv.FormatUint`). -/
def natToDec (n : Nat) : String :=
  if n = 0 then "0" else String.mk (natToDecAux n [])

/-- Model of `strconv.FormatInt(x, 10)`. -/
def formatInt (n : Int) : String :=
  if n < 0 then "-" ++ natToDec n.natAbs else natToDec n.natAbs

/-- Model of `strconv.FormatUint(x, 10)`. -/
def formatUint (n : Nat) : String := natToDec n

/-- Round a nonnegative rational scaled by 10^4 to the nearest integer,
ties to even (the rounding of `strconv.FormatFloat` with format 'f'). -/
def roundScaled4 (q : Rat) : Nat :=
  let n := q.num.toNat * 10000
  let d := q.den
  let quot := n / d
  let rem := n % d
  if d < 2 * rem then quot + 1
  else if 2 * rem < d then quot
  else if quot % 2 = 0 then quot else quot + 1

/-- Model of `strconv.FormatFloat(x, 'f', 4, _)`: fixed-point rendering with
exactly four digits after the decimal point (the Go float is modelled as a
rational). -/
def formatFixed4 (q : Rat) : String :=
  let sign := if q < 0 then "-" else ""
  let m := roundScaled4 |q|
  let ip := m / 10000
  let fr := m % 10000
  sign ++ natToDec ip ++ "." ++
    String.mk [digitChar (fr / 1000), digitChar (fr / 100), digitChar (fr / 10), digitChar fr]

/-! ## Request descriptors and the query flattener -/

/-- The value of one struct field of a request descriptor, by the dynamic
type cases that `toValues` switches on.  `boolV` and `otherV` are the types
for which the Go switch has no case (bools, slices, nested structs, ...);
`otherV` records only whether the value is the zero value of its type. -/
inductive FieldValue where
  | intV (v : Int)
  | uintV (v : Nat)
  | float32V (v : Rat)
  | float64V (v : Rat)
  | bytesV (s : String)
  | strV (s : String)
  | boolV (b : Bool)
  | otherV (isZero : Bool)
deriving DecidableEq, Repr

/-- One struct field of a request descriptor: Go field name, `json` tag
(`""` when the tag is absent), whether the field carries a
`validate:"required"` tag, and its value. -/
structure Field where
  name : String
  jsonTag : String
  required : Bool
  value : FieldValue
deriving DecidableEq, Repr

/-- The `interface{}`-typed request descriptor argument of the executors:
Go `nil`, an already-flat `url.Values`, or a struct. -/
inductive ApiReq where
  | nilReq
  | valuesReq (vs : Values)
  | structReq (fields : List Field)
deriving DecidableEq, Repr

/-- The query key of a field: the `json` tag, falling back to the field
name when no tag is declared (`toValues`, category.go lines 315-318). -/
def fieldKey (f : Field) : String :=
  if f.jsonTag = "" then f.name else f.jsonTag

/-- The rendered string of one field value: the `switch f.Interface().(type)`
of `toValues` (category.go lines 319-333).  Types without a case (bool and
`otherV`) leave `v` as the empty string. -/
def renderField : FieldValue → String
  | .intV n => formatInt n
  | .uintV n => formatUint n
  | .float32V q => formatFixed4 q
  | .float64V q => formatFixed4 q
  | .bytesV s => s
  | .strV s => s
  | .boolV _ => ""
  | .otherV _ => ""

/-- One iteration of the field loop of `toValues` (category.go lines
313-338): `Set` the rendered value under the field's key when the rendered
value is nonempty, otherwise leave the accumulated query unchanged. -/
def flattenStep (acc : Values) (f : Field) : Values :=
  let v := renderField f.value
  if v ≠ "" then Values.set acc (fieldKey f) v else acc

/-- Model of `toValues` (category.go lines 299-340): `nil` yields the empty
query, a `url.Values` descriptor is returned unchanged, and a struct is
flattened field by field. -/
def toValues : ApiReq → Values
  | .nilReq => []
  | .valuesReq vs => vs
  | .structReq fs => fs.foldl flattenStep []

/-! ## Errors and validation -/

/-- The structured API error envelope (types.go lines 13-29), JSON keys
`error`, `error_description`, `status_code`. -/
structure Error where
  Err : String
  Description : String
  Status : Int
deriving DecidableEq, Repr

/-- The zero value of `Error`, left behind when decoding an error body
fails. -/
def Error.zero : Error := ⟨"", "", 0⟩

/-- The errors a call can return, one constructor per source of failure. -/
inductive GoErr where
  /-- `errors.New("eventbrite: Token missing")` from `generateAuthQuery`. -/
  | tokenMissing
  /-- `validator.Struct` applied to a non-struct value (e.g. `url.Values`)
  returns an `InvalidValidationError`. -/
  | invalidValidation
  /-- `validator.Struct` found a required field at its zero value; carries
  the field name. -/
  | validationFailed (field : String)
  /-- `ctx.Err()` after the context's done channel fired. -/
  | canceled
  /-- `http.NewRequest` failed. -/
  | newRequestFailed (msg : String)
  /-- `json.Marshal` of the POST body failed. -/
  | marshalFailed (msg : String)
  /-- `ctxhttp.Do` failed at the network level. -/
  | transportFailed (msg : String)
  /-- `json.Decode` of a response body into the result failed. -/
  | decodeFailed (msg : String)
  /-- A non-200 response surfaced as the decoded `Error` envelope. -/
  | apiError (e : Error)
deriving DecidableEq, Repr

/-- Whether a field value is the zero value of its type (the emptiness
notion of the validator's `required` constraint). -/
def FieldValue.isZero : FieldValue → Bool
  | .intV n => n == 0
  | .uintV n => n == 0
  | .float32V q => q == 0
  | .float64V q => q == 0
  | .bytesV s => s == ""
  | .strV s => s == ""
  | .boolV b => b == false
  | .otherV z => z

/-- Model of `validate.Struct` (gopkg.in/go-playground/validator.v9): on a
struct, fail on the first `required` field holding its zero value; on a
non-struct top-level value (such as `url.Values`) return an
`InvalidValidationError`. -/
def validateStruct : ApiReq → Option GoErr
  | .nilReq => none
  | .valuesReq _ => some .invalidValidation
  | .structReq fs =>
    match fs.find? (fun f => f.required && f.value.isZero) with
    | some f => some (.validationFailed f.name)
    | none => none

/-- The `if apiReq != nil { validate.Struct(apiReq) }` guard of `get` and
`post`. -/
def validateIfPresent : ApiReq → Option GoErr
  | .nilReq => none
  | r => validateStruct r

/-! ## The client and the call pipeline -/

/-- The client configuration (category.go lines 81-87); `hasLimiter` is
whether `ratePerSecond` is a non-nil channel, i.e. `requestsPerSecond > 0`
at construction. -/
structure Client where
  token : String
  baseURL : String
  hasLimiter : Bool
deriving DecidableEq, Repr

/-- An HTTP response as far as the executors inspect it: status code and
raw body. -/
structure HttpResponse where
  statusCode : Nat
  body : String
deriving DecidableEq, Repr

/-- Outcome of `ctxhttp.Do`. -/
inductive TransportResult where
  | ok (resp : HttpResponse)
  | fail (msg : String)
deriving DecidableEq, Repr

/-- Resolution of the external effects of one call: the state of the
context's done channel at the rate-limiter select, the select tie-break
(Go picks a ready case pseudo-randomly, `tieDone = true` picks `ctx.Done()`
when a permit is simultaneously available), and the outcomes of
`http.NewRequest`, `json.Marshal` and the transport. -/
structure Env where
  ctxDone : Bool
  tieDone : Bool
  newRequestErr : Option String
  marshalErr : Option String
  transport : TransportResult
deriving Repr

/-- Observable events of one call. -/
inductive Event where
  /-- A permit was received from the `ratePerSecond` channel. -/
  | permitConsumed
  /-- `ctxhttp.Do` was invoked with this method, URL and raw query. -/
  | transported (method : String) (url : String) (query : String)
deriving DecidableEq, Repr

/-- Whether an event is a transport invocation. -/
def Event.isTransport : Event → Bool
  | .transported _ _ _ => true
  | _ => false

/-- Result of a call in the embedding: `blocked` is a call suspended on the
permit channel with no permit available and no cancellation (in the static
per-call state model). -/
inductive ExecResult (α : Type) where
  | blocked
  | err (e : GoErr)
  | ok (val : α)
deriving DecidableEq, Repr

/-- A call's result together with the remaining permit count and the list
of events it produced. -/
structure CallOut (α : Type) where
  result : ExecResult α
  permits : Nat
  events : List Event
deriving Repr

/-- Outcome of `awaitRateLimiter`'s select. -/
inductive RateRes where
  | proceed (permits : Nat) (consumed : Bool)
  | cancel
  | blocked
deriving DecidableEq, Repr

/-- Model of `awaitRateLimiter` (category.go lines 156-166): nil channel
proceeds at once; otherwise select between the done channel and a permit
receive.  When only one case is ready it is taken; when both are ready the
tie-break decides; when neither is ready the call blocks. -/
def awaitRateLimiter (c : Client) (ctxDone tieDone : Bool) (permits : Nat) : RateRes :=
  if c.hasLimiter = false then .proceed permits false
  else if permits = 0 then (if ctxDone then .cancel else .blocked)
  else if ctxDone && tieDone then .cancel
  else .proceed (permits - 1) true

/-- The host computation of each executor: `host` starts as `path` and is
replaced by `c.baseURL` whenever the base URL is nonempty. -/
def hostOf (c : Client) (path : String) : String :=
  if c.baseURL ≠ "" then c.baseURL else path

/-- The two `Set` calls of `generateAuthQuery` (category.go lines 256-257):
the token parameter and the fixed response-expansion parameter. -/
def authValues (c : Client) (q : Values) : Values :=
  Values.set (Values.set q "token" c.token) "expand" "venue,category,subcategories"

/-- Model of `generateAuthQuery` (category.go lines 254-261): with a
nonempty token, set `token` and `expand` and encode; with an empty token,
fail with the missing-token error. -/
def generateAuthQuery (c : Client) (q : Values) : Except GoErr String :=
  if c.token ≠ "" then .ok (Values.encode (authValues c q))
  else .error .tokenMissing

/-- Model of `Client.get` (category.go lines 168-193): rate limiter, then
validation of a non-nil descriptor, then request construction, then auth
query (flattening the descriptor), then the transport. -/
def get (c : Client) (env : Env) (path : String) (apiReq : ApiReq) (permits : Nat) :
    CallOut HttpResponse :=
  match awaitRateLimiter c env.ctxDone env.tieDone permits with
  | .cancel => ⟨.err .canceled, permits, []⟩
  | .blocked => ⟨.blocked, permits, []⟩
  | .proceed permits' consumed =>
    let ev0 : List Event := if consumed then [.permitConsumed] else []
    match validateIfPresent apiReq with
    | some e => ⟨.err e, permits', ev0⟩
    | none =>
      match env.newRequestErr with
      | some m => ⟨.err (.newRequestFailed m), permits', ev0⟩
      | none =>
        match generateAuthQuery c (toValues apiReq) with
        | .error e => ⟨.err e, permits', ev0⟩
        | .ok q =>
          let ev1 := ev0 ++ [.transported "GET" (hostOf c path ++ path) q]
          match env.transport with
          | .ok resp => ⟨.ok resp, permits', ev1⟩
          | .fail m => ⟨.err (.transportFailed m), permits', ev1⟩

/-- Model of `Client.delete` (category.go lines 195-217): rate limiter,
request construction, auth query over an empty `url.Values`, transport.
No descriptor, hence no validation and no flattening. -/
def delete (c : Client) (env : Env) (path : String) (permits : Nat) :
    CallOut HttpResponse :=
  match awaitRateLimiter c env.ctxDone env.tieDone permits with
  | .cancel => ⟨.err .canceled, permits, []⟩
  | .blocked => ⟨.blocked, permits, []⟩
  | .proceed permits' consumed =>
    let ev0 : List Event := if consumed then [.permitConsumed] else []
    match env.newRequestErr with
    | some m => ⟨.err (.newRequestFailed m), permits', ev0⟩
    | none =>
      match generateAuthQuery c [] with
      | .error e => ⟨.err e, permits', ev0⟩
      | .ok q =>
        let ev1 := ev0 ++ [.transported "DELETE" (hostOf c path ++ path) q]
        match env.transport with
        | .ok resp => ⟨.ok resp, permits', ev1⟩
        | .fail m => ⟨.err (.transportFailed m), permits', ev1⟩

/-- Model of `Client.post` (category.go lines 219-252): validation of a
non-nil descriptor first, then the rate limiter, then body marshalling and
request construction, then the auth query over an empty `url.Values`, then
the transport. -/
def post (c : Client) (env : Env) (path : String) (apiReq : ApiReq) (permits : Nat) :
    CallOut HttpResponse :=
  match validateIfPresent apiReq with
  | some e => ⟨.err e, permits, []⟩
  | none =>
    match awaitRateLimiter c env.ctxDone env.tieDone permits with
    | .cancel => ⟨.err .canceled, permits, []⟩
    | .blocked => ⟨.blocked, permits, []⟩
    | .proceed permits' consumed =>
      let ev0 : List Event := if consumed then [.permitConsumed] else []
      match env.marshalErr with
      | some m => ⟨.err (.marshalFailed m), permits', ev0⟩
      | none =>
        match env.newRequestErr with
        | some m => ⟨.err (.newRequestFailed m), permits', ev0⟩
        | none =>
          match generateAuthQuery c [] with
          | .error e => ⟨.err e, permits', ev0⟩
          | .ok q =>
            let ev1 := ev0 ++ [.transported "POST" (hostOf c path ++ path) q]
            match env.transport with
            | .ok resp => ⟨.ok resp, permits', ev1⟩
            | .fail m => ⟨.err (.transportFailed m), permits', ev1⟩

/-- Model of `Client.getJSON` (category.go lines 263-277): on a 200
response decode the body into the result; on any other status decode the
body as the `Error` envelope, swallowing a decode failure (the envelope is
left at its zero value), and return the envelope as the error.  The JSON
decoders are passed as oracles resolving `encoding/json`. -/
def getJSON {α : Type} (c : Client) (env : Env)
    (decodeBody : String → Except String α) (decodeErrBody : String → Option Error)
    (path : String) (apiReq : ApiReq) (permits : Nat) : CallOut α :=
  let o := get c env path apiReq permits
  match o.result with
  | .blocked => ⟨.blocked, o.permits, o.events⟩
  | .err e => ⟨.err e, o.permits, o.events⟩
  | .ok resp =>
    if resp.statusCode = 200 then
      match decodeBody resp.body with
      | .ok a => ⟨.ok a, o.permits, o.events⟩
      | .error m => ⟨.err (.decodeFailed m), o.permits, o.events⟩
    else
      ⟨.err (.apiError ((decodeErrBody resp.body).getD Error.zero)), o.permits, o.events⟩

/-- Model of `Client.postJSON` (category.go lines 279-287): decode the
response body into the result unconditionally, with no branching on the
status code. -/
def postJSON {α : Type} (c : Client) (env : Env)
    (decodeBody : String → Except String α)
    (path : String) (apiReq : ApiReq) (permits : Nat) : CallOut α :=
  let o := post c env path apiReq permits
  match o.result with
  | .blocked => ⟨.blocked, o.permits, o.events⟩
  | .err e => ⟨.err e, o.permits, o.events⟩
  | .ok resp =>
    match decodeBody resp.body with
    | .ok a => ⟨.ok a, o.permits, o.events⟩
    | .error m => ⟨.err (.decodeFailed m), o.permits, o.events⟩

/-- Model of `Client.deleteJSON` (category.go lines 289-297): decode the
response body into the result unconditionally. -/
def deleteJSON {α : Type} (c : Client) (env : Env)
    (decodeBody : String → Except String α)
    (path : String) (permits : Nat) : CallOut α :=
  let o := delete c env path permits
  match o.result with
  | .blocked => ⟨.blocked, o.permits, o.events⟩
  | .err e => ⟨.err e, o.permits, o.events⟩
  | .ok resp =>
    match decodeBody resp.body with
    | .ok a => ⟨.ok a, o.permits, o.events⟩
    | .error m => ⟨.err (.decodeFailed m), o.permits, o.events⟩

/-! ## The rate limiter as a state machine

`NewClient` (category.go lines 107-118) creates, for `requestsPerSecond = N
> 0`, a channel of capacity N, sends N permits into it, and starts a ticker
goroutine that sends one permit per tick.  The channel occupancy is the
state; a buffered send completes only when there is space, a receive only
when a permit exists. -/

/-- Construction: for `requestsPerSecond > 0` the permit channel exists
with capacity and initial occupancy `requestsPerSecond`; otherwise rate
limiting is disabled. -/
def mkLimiter (requestsPerSecond : Int) : Option (Nat × Nat) :=
  if 0 < requestsPerSecond then some (requestsPerSecond.toNat, requestsPerSecond.toNat)
  else none

/-- The two operations on the permit channel. -/
inductive LimiterOp where
  /-- The ticker goroutine sends one permit (completes only when the
  channel is below capacity). -/
  | tick
  /-- `awaitRateLimiter` receives one permit (completes only when one is
  available). -/
  | acquire
deriving DecidableEq, Repr

/-- One completed channel operation. -/
def limiterStep (cap : Nat) (s : Nat) : LimiterOp → Nat
  | .tick => if s < cap then s + 1 else s
  | .acquire => if 0 < s then s - 1 else s

/-- The permit count after a sequence of completed operations, starting
from the pre-filled channel. -/
def limiterRun (cap : Nat) (ops : List LimiterOp) : Nat :=
  ops.foldl (limiterStep cap) cap

/-! ## Query-string inspection helpers -/

/-- Split a character list on a separator character. -/
def splitChar (sep : Char) : List Char → List (List Char)
  | [] => [[]]
  | c :: rest =>
    let r := splitChar sep rest
    if c = sep then [] :: r
    else
      match r with
      | [] => [[c]]
      | g :: gs => (c :: g) :: gs

/-- Whether an encoded query string contains a parameter with the given
key: split on `&`, take each segment's part before the first `=`. -/
def queryHasParam (q k : String) : Bool :=
  ((splitChar '&' q.toList).map (fun g => (splitChar '=' g).headD [])).contains k.toList

/-- The `GetUserOrganizersRequest` descriptor (user.go): a single bool
field `HideUnsaved` with json tag `hide_unsaved` and no validate tag. -/
def GetUserOrganizersRequest (hideUnsaved : Bool) : ApiReq :=
  .structReq [⟨"HideUnsaved", "hide_unsaved", false, .boolV hideUnsaved⟩]

/-! ## Helper lemmas -/

theorem generateAuthQuery_noToken {c : Client} (h : c.token = "") (q : Values) :
    generateAuthQuery c q = .error .tokenMissing := by
  simp [generateAuthQuery, h]

theorem generateAuthQuery_token {c : Client} (h : c.token ≠ "") (q : Values) :
    generateAuthQuery c q = .ok (Values.encode (authValues c q)) := by
  simp [generateAuthQuery, h]

theorem awaitRateLimiter_ok (c : Client) (tie : Bool) (permits : Nat)
    (hperm : c.hasLimiter = true → 0 < permits) :
    awaitRateLimiter c false tie permits =
      if c.hasLimiter then .proceed (permits - 1) true else .proceed permits false := by
  cases hc : c.hasLimiter with
  | false => simp [awaitRateLimiter, hc]
  | true =>
    have hp : permits ≠ 0 := Nat.pos_iff_ne_zero.mp (hperm hc)
    simp [awaitRateLimiter, hc, hp]

theorem awaitRateLimiter_exhausted (c : Client) (tie : Bool)
    (hlim : c.hasLimiter = true) : awaitRateLimiter c true tie 0 = .cancel := by
  simp [awaitRateLimiter, hlim]

theorem get_pipeline (c : Client) (env : Env) (path : String) (req : ApiReq) (permits : Nat)
    (hdone : env.ctxDone = false) (hperm : c.hasLimiter = true → 0 < permits)
    (hval : validateIfPresent req = none) (hnr : env.newRequestErr = none)
    (htok : c.token ≠ "") :
    get c env path req permits =
      ⟨(match env.transport with
         | .ok resp => .ok resp
         | .fail m => .err (.transportFailed m)),
       if c.hasLimiter then permits - 1 else permits,
       (if c.hasLimiter then [Event.permitConsumed] else []) ++
         [.transported "GET" (hostOf c path ++ path)
            (Values.encode (authValues c (toValues req)))]⟩ := by
  unfold get
  rw [hdone, awaitRateLimiter_ok c env.tieDone permits hperm]
  cases hc : c.hasLimiter <;>
    cases env.transport <;>
    simp [hc, hval, hnr, generateAuthQuery_token htok]

theorem delete_pipeline (c : Client) (env : Env) (path : String) (permits : Nat)
    (hdone : env.ctxDone = false) (hperm : c.hasLimiter = true → 0 < permits)
    (hnr : env.newRequestErr = none) (htok : c.token ≠ "") :
    delete c env path permits =
      ⟨(match env.transport with
         | .ok resp => .ok resp
         | .fail m => .err (.transportFailed m)),
       if c.hasLimiter then permits - 1 else permits,
       (if c.hasLimiter then [Event.permitConsumed] else []) ++
         [.transported "DELETE" (hostOf c path ++ path)
            (Values.encode (authValues c []))]⟩ := by
  unfold delete
  rw [hdone, awaitRateLimiter_ok c env.tieDone permits hperm]
  cases hc : c.hasLimiter <;>
    cases env.transport <;>
    simp [hc, hnr, generateAuthQuery_token htok]

theorem post_pipeline (c : Client) (env : Env) (path : String) (req : ApiReq) (permits : Nat)
    (hdone : env.ctxDone = false) (hperm : c.hasLimiter = true → 0 < permits)
    (hval : validateIfPresent req = none) (hmar : env.marshalErr = none)
    (hnr : env.newRequestErr = none) (htok : c.token ≠ "") :
    post c env path req permits =
      ⟨(match env.transport with
         | .ok resp => .ok resp
         | .fail m => .err (.transportFailed m)),
       if c.hasLimiter then permits - 1 else permits,
       (if c.hasLimiter then [Event.permitConsumed] else []) ++
         [.transported "POST" (hostOf c path ++ path)
            (Values.encode (authValues c []))]⟩ := by
  unfold post
  rw [hval, hdone, awaitRateLimiter_ok c env.tieDone permits hperm]
  cases hc : c.hasLimiter <;>
    cases env.transport <;>
    simp [hc, hmar, hnr, generateAuthQuery_token htok]

theorem get_noToken_shape (c : Client) (env : Env) (path : String) (req : ApiReq)
    (permits : Nat) (htok : c.token = "") :
    ((get c env path req permits).events = [] ∨
      (get c env path req permits).events = [Event.permitConsumed]) ∧
    ∀ r, (get c env path req permits).result ≠ .ok r := by
  unfold get
  cases h : awaitRateLimiter c env.ctxDone env.tieDone permits with
  | cancel => simp
  | blocked => simp
  | proceed p' consumed =>
    cases hv : validateIfPresent req with
    | some e => cases consumed <;> simp
    | none =>
      cases hnr : env.newRequestErr with
      | some m => cases consumed <;> simp
      | none => cases consumed <;> simp [generateAuthQuery_noToken htok]

theorem delete_noToken_shape (c : Client) (env : Env) (path : String)
    (permits : Nat) (htok : c.token = "") :
    ((delete c env path permits).events = [] ∨
      (delete c env path permits).events = [Event.permitConsumed]) ∧
    ∀ r, (delete c env path permits).result ≠ .ok r := by
  unfold delete
  cases h : awaitRateLimiter c env.ctxDone env.tieDone permits with
  | cancel => simp
  | blocked => simp
  | proceed p' consumed =>
    cases hnr : env.newRequestErr with
    | some m => cases consumed <;> simp
    | none => cases consumed <;> simp [generateAuthQuery_noToken htok]

theorem post_noToken_shape (c : Client) (env : Env) (path : String) (req : ApiReq)
    (permits : Nat) (htok : c.token = "") :
    ((post c env path req permits).events = [] ∨
      (post c env path req permits).events = [Event.permitConsumed]) ∧
    ∀ r, (post c env path req permits).result ≠ .ok r := by
  unfold post
  cases hv : validateIfPresent req with
  | some e => simp
  | none =>
    cases h : awaitRateLimiter c env.ctxDone env.tieDone permits with
    | cancel => simp
    | blocked => simp
    | proceed p' consumed =>
      cases hmar : env.marshalErr with
      | some m => cases consumed <;> simp
      | none =>
        cases hnr : env.newRequestErr with
        | some m => cases consumed <;> simp
        | none => cases consumed <;> simp [generateAuthQuery_noToken htok]

theorem get_noToken_result (c : Client) (env : Env) (path : String) (req : ApiReq)
    (permits : Nat) (htok : c.token = "") (hdone : env.ctxDone = false)
    (hperm : c.hasLimiter = true → 0 < permits)
    (hval : validateIfPresent req = none) (hnr : env.newRequestErr = none) :
    (get c env path req permits).result = .err .tokenMissing := by
  unfold get
  rw [hdone, awaitRateLimiter_ok c env.tieDone permits hperm]
  cases hc : c.hasLimiter <;> simp [hc, hval, hnr, generateAuthQuery_noToken htok]

theorem delete_noToken_result (c : Client) (env : Env) (path : String)
    (permits : Nat) (htok : c.token = "") (hdone : env.ctxDone = false)
    (hperm : c.hasLimiter = true → 0 < permits) (hnr : env.newRequestErr = none) :
    (delete c env path permits).result = .err .tokenMissing := by
  unfold delete
  rw [hdone, awaitRateLimiter_ok c env.tieDone permits hperm]
  cases hc : c.hasLimiter <;> simp [hc, hnr, generateAuthQuery_noToken htok]

theorem post_noToken_result (c : Client) (env : Env) (path : String) (req : ApiReq)
    (permits : Nat) (htok : c.token = "") (hdone : env.ctxDone = false)
    (hperm : c.hasLimiter = true → 0 < permits)
    (hval : validateIfPresent req = none) (hmar : env.marshalErr = none)
    (hnr : env.newRequestErr = none) :
    (post c env path req permits).result = .err .tokenMissing := by
  unfold post
  rw [hval, hdone, awaitRateLimiter_ok c env.tieDone permits hperm]
  cases hc : c.hasLimiter <;> simp [hc, hmar, hnr, generateAuthQuery_noToken htok]

theorem mem_set : ∀ (vs : Values) (k v : String) (kv : String × String),
    kv ∈ Values.set vs k v → kv = (k, v) ∨ kv ∈ vs
  | [], _, _, _, h => by simpa [Values.set] using h
  | (k', v') :: rest, k, v, kv, h => by
    by_cases hk : k' = k
    · simp only [Values.set, if_pos hk] at h
      rcases List.mem_cons.mp h with h | h
      · exact Or.inl h
      · exact Or.inr (List.mem_cons_of_mem _ h)
    · simp only [Values.set, if_neg hk] at h
      rcases List.mem_cons.mp h with h | h
      · exact Or.inr (h ▸ List.mem_cons_self _ _)
      · rcases mem_set rest k v kv h with h | h
        · exact Or.inl h
        · exact Or.inr (List.mem_cons_of_mem _ h)

theorem get?_set_self : ∀ (vs : Values) (k v : String),
    Values.get? (Values.set vs k v) k = some v
  | [], k, v => by simp [Values.set, Values.get?]
  | (k', v') :: rest, k, v => by
    by_cases hk : k' = k
    · simp [Values.set, hk, Values.get?]
    · simp [Values.set, hk, Values.get?, get?_set_self rest k v]

theorem get?_set_isSome : ∀ (vs : Values) (k v k' : String),
    (Values.get? vs k').isSome = true →
    (Values.get? (Values.set vs k v) k').isSome = true
  | [], k, v, k', h => by simp [Values.get?] at h
  | (a, b) :: rest, k, v, k', h => by
    by_cases hak : a = k
    · subst hak
      by_cases hk' : a = k'
      · simp [Values.set, Values.get?, hk']
      · simp only [Values.get?, if_neg hk'] at h
        simp [Values.set, Values.get?, hk', h]
    · by_cases hk' : a = k'
      · subst hk'
        simp [Values.set, hak, Values.get?]
      · simp only [Values.get?, if_neg hk'] at h
        simp [Values.set, hak, Values.get?, hk', get?_set_isSome rest k v k' h]

theorem flatten_mem : ∀ (fs : List Field) (acc : Values) (kv : String × String),
    kv ∈ fs.foldl flattenStep acc →
    kv ∈ acc ∨ ∃ f, f ∈ fs ∧ kv.1 = fieldKey f ∧ kv.2 = renderField f.value ∧
      renderField f.value ≠ ""
  | [], _, _, h => Or.inl (by simpa using h)
  | f :: fs, acc, kv, h => by
    have h' : kv ∈ fs.foldl flattenStep (flattenStep acc f) := by simpa using h
    rcases flatten_mem fs (flattenStep acc f) kv h' with h2 | ⟨g, hg, hr⟩
    · by_cases hrf : renderField f.value = ""
      · have he : flattenStep acc f = acc := by simp [flattenStep, hrf]
        rw [he] at h2
        exact Or.inl h2
      · have he : flattenStep acc f = Values.set acc (fieldKey f) (renderField f.value) := by
          simp [flattenStep, hrf]
        rw [he] at h2
        rcases mem_set _ _ _ _ h2 with h3 | h3
        · exact Or.inr ⟨f, List.mem_cons_self _ _, by rw [h3], by rw [h3], hrf⟩
        · exact Or.inl h3
    · exact Or.inr ⟨g, List.mem_cons_of_mem _ hg, hr⟩

theorem flatten_mono : ∀ (fs : List Field) (acc : Values) (k : String),
    (Values.get? acc k).isSome = true →
    (Values.get? (fs.foldl flattenStep acc) k).isSome = true
  | [], _, _, h => by simpa using h
  | f :: fs, acc, k, h => by
    rw [List.foldl_cons]
    apply flatten_mono fs
    by_cases hrf : renderField f.value = ""
    · simpa [flattenStep, hrf] using h
    · have he : flattenStep acc f = Values.set acc (fieldKey f) (renderField f.value) := by
        simp [flattenStep, hrf]
      rw [he]
      exact get?_set_isSome _ _ _ _ h

theorem flatten_present : ∀ (fs : List Field) (acc : Values) (f : Field),
    f ∈ fs → renderField f.value ≠ "" →
    (Values.get? (fs.foldl flattenStep acc) (fieldKey f)).isSome = true
  | [], _, _, hf, _ => absurd hf (List.not_mem_nil _)
  | g :: fs, acc, f, hf, hr => by
    rw [List.foldl_cons]
    rcases List.mem_cons.mp hf with rfl | hmem
    · apply flatten_mono
      have he : flattenStep acc f = Values.set acc (fieldKey f) (renderField f.value) := by
        simp [flattenStep, hr]
      rw [he, get?_set_self]
      rfl
    · exact flatten_present fs _ f hmem hr

theorem limiterStep_le (cap s : Nat) (hs : s ≤ cap) (op : LimiterOp) :
    limiterStep cap s op ≤ cap := by
  cases op <;> simp only [limiterStep] <;> split <;> omega

theorem limiterFold_le (cap : Nat) : ∀ (ops : List LimiterOp) (s : Nat), s ≤ cap →
    List.foldl (limiterStep cap) s ops ≤ cap
  | [], s, h => by simpa using h
  | op :: ops, s, h => by
    rw [List.foldl_cons]
    exact limiterFold_le cap ops _ (limiterStep_le cap s h op)

theorem digitChar_isDigit (n : Nat) : (digitChar n).isDigit = true := by
  have h : ∀ m, m < 10 → (Char.ofNat (48 + m)).isDigit = true := by decide
  simp only [digitChar]
  exact h (n % 10) (Nat.mod_lt n (by decide))

theorem natToDecAux_digits (n : Nat) : ∀ (acc : List Char),
    (∀ c ∈ acc, c.isDigit = true) → ∀ c ∈ natToDecAux n acc, c.isDigit = true := by
  induction n using Nat.strong_induction_on with
  | _ n ih =>
    intro acc hacc c hc
    cases n with
    | zero =>
      rw [natToDecAux] at hc
      exact hacc c hc
    | succ m =>
      rw [natToDecAux] at hc
      refine ih ((m + 1) / 10) (Nat.div_lt_self (Nat.succ_pos m) (by decide)) _ ?_ c hc
      intro d hd
      rcases List.mem_cons.mp hd with rfl | hd
      · exact digitChar_isDigit _
      · exact hacc _ hd

theorem natToDecAux_ne_nil (n : Nat) : ∀ (acc : List Char), acc ≠ [] →
    natToDecAux n acc ≠ [] := by
  induction n using Nat.strong_induction_on with
  | _ n ih =>
    intro acc hacc
    cases n with
    | zero => rw [natToDecAux]; exact hacc
    | succ m =>
      rw [natToDecAux]
      exact ih ((m + 1) / 10) (Nat.div_lt_self (Nat.succ_pos m) (by decide)) _ (by simp)

theorem stringMk_ne_empty {l : List Char} (h : l ≠ []) : String.mk l ≠ "" := by
  intro he
  apply h
  have := congrArg String.data he
  simpa using this

theorem natToDec_ne_empty (n : Nat) : natToDec n ≠ "" := by
  unfold natToDec
  split
  · decide
  · rename_i hn
    cases n with
    | zero => exact absurd rfl hn
    | succ m =>
      apply stringMk_ne_empty
      rw [natToDecAux]
      exact natToDecAux_ne_nil _ _ (by simp)

theorem natToDec_digits (n : Nat) : ∀ c ∈ (natToDec n).toList, c.isDigit = true := by
  unfold natToDec
  split
  · intro c hc
    have : c = '0' := by simpa using hc
    rw [this]; decide
  · intro c hc
    exact natToDecAux_digits n [] (by simp) c (by simpa using hc)

theorem dash_append_ne_empty (s : String) : "-" ++ s ≠ "" := by
  intro he
  have h := congrArg String.length he
  rw [String.length_append] at h
  simp at h
  exact absurd h.1 (by decide)

/-! ## Claims -/

/-- C9: the query flattener is the identity on descriptors that are already
a flat key/value mapping (they are returned unchanged, bypassing field
reflection), and a nil descriptor flattens to the empty query. -/
theorem C9_flattener_identity :
    (∀ vs : Values, toValues (.valuesReq vs) = vs) ∧ toValues .nilReq = [] :=
  ⟨fun _ => rfl, rfl⟩

/-- C8: a client constructed with requestsPerSecond = N > 0 creates the
permit channel with capacity N, pre-filled with exactly N permits; each
background replenishment adds at most one permit, each acquisition removes
exactly one, every operation preserves the bound, and hence in every
reachable state the permit count never exceeds N. -/
theorem C8_limiter_invariant (n : Int) (hn : 0 < n) :
    mkLimiter n = some (n.toNat, n.toNat) ∧
    limiterRun n.toNat [] = n.toNat ∧
    (∀ s : Nat, limiterStep n.toNat s .tick ≤ s + 1) ∧
    (∀ s : Nat, 0 < s → limiterStep n.toNat s .acquire = s - 1) ∧
    (∀ s : Nat, s ≤ n.toNat → ∀ op : LimiterOp, limiterStep n.toNat s op ≤ n.toNat) ∧
    (∀ ops : List LimiterOp, limiterRun n.toNat ops ≤ n.toNat) := by
  refine ⟨by simp [mkLimiter, hn], rfl, ?_, ?_, ?_, ?_⟩
  · intro s; simp only [limiterStep]; split <;> omega
  · intro s hs; simp [limiterStep, hs]
  · exact fun s hs op => limiterStep_le _ _ hs op
  · exact fun ops => limiterFold_le _ ops _ le_rfl

theorem C8_witness :
    (0 : Int) < 5 ∧ mkLimiter 5 = some ((5 : Int).toNat, (5 : Int).toNat) ∧
    limiterRun (5 : Int).toNat [.acquire, .tick, .tick] ≤ (5 : Int).toNat :=
  ⟨by decide, (C8_limiter_invariant 5 (by decide)).1,
    (C8_limiter_invariant 5 (by decide)).2.2.2.2.2 [.acquire, .tick, .tick]⟩

/-- C10: fields of boolean type, and of any type other than the
integer/float/bytes/string cases of the flattener's switch, are never
emitted into the query, regardless of value or position; in particular
GetUserOrganizersRequest with HideUnsaved = true flattens to the empty
query, with no hide_unsaved key. -/
theorem C10_untyped_fields_dropped (fs₁ fs₂ : List Field) (f : Field)
    (h : (∃ b, f.value = .boolV b) ∨ ∃ z, f.value = .otherV z) :
    toValues (.structReq (fs₁ ++ f :: fs₂)) = toValues (.structReq (fs₁ ++ fs₂)) ∧
    (∀ b : Bool, toValues (GetUserOrganizersRequest b) = []) ∧
    (∀ b : Bool,
      Values.get? (toValues (GetUserOrganizersRequest b)) "hide_unsaved" = none) := by
  have hrf : renderField f.value = "" := by
    rcases h with ⟨b, hb⟩ | ⟨z, hz⟩
    · rw [hb]; rfl
    · rw [hz]; rfl
  have hstep : ∀ acc : Values, flattenStep acc f = acc := fun acc => by
    simp [flattenStep, hrf]
  refine ⟨?_, ?_, ?_⟩
  · simp [toValues, List.foldl_append, hstep]
  · intro b; cases b <;> decide
  · intro b; cases b <;> decide

theorem C10_witness :
    toValues (.structReq ([] ++ (⟨"X", "x", false, .boolV true⟩ : Field) :: [])) =
      toValues (.structReq ([] ++ [])) ∧
    toValues (GetUserOrganizersRequest true) = [] :=
  ⟨(C10_untyped_fields_dropped [] [] ⟨"X", "x", false, .boolV true⟩
      (Or.inl ⟨true, rfl⟩)).1,
    (C10_untyped_fields_dropped [] [] ⟨"X", "x", false, .boolV true⟩
      (Or.inl ⟨true, rfl⟩)).2.1 true⟩

/-- C7: with the rate limiter present but exhausted (no permit available)
and the caller's cancellation signal already fired, every executor returns
the cancellation error, the permit count is unchanged, and no subsequent
step runs — in particular no HTTP request is issued (the event list is
empty). -/
theorem C7_cancel_no_permit (c : Client) (env : Env) (path : String) (req : ApiReq)
    (hlim : c.hasLimiter = true) (hdone : env.ctxDone = true) :
    ((get c env path req 0).result = .err .canceled ∧
      (get c env path req 0).permits = 0 ∧ (get c env path req 0).events = []) ∧
    ((delete c env path 0).result = .err .canceled ∧
      (delete c env path 0).permits = 0 ∧ (delete c env path 0).events = []) ∧
    (validateIfPresent req = none →
      (post c env path req 0).result = .err .canceled ∧
      (post c env path req 0).permits = 0 ∧ (post c env path req 0).events = []) := by
  have hrl := awaitRateLimiter_exhausted c env.tieDone hlim
  refine ⟨?_, ?_, fun hval => ?_⟩
  · unfold get; rw [hdone, hrl]; exact ⟨rfl, rfl, rfl⟩
  · unfold delete; rw [hdone, hrl]; exact ⟨rfl, rfl, rfl⟩
  · unfold post; rw [hval, hdone, hrl]; exact ⟨rfl, rfl, rfl⟩

theorem C7_witness :
    (get ⟨"t", "b", true⟩ ⟨true, false, none, none, .fail "m"⟩ "/p" .nilReq 0).result =
      .err .canceled ∧
    (get ⟨"t", "b", true⟩ ⟨true, false, none, none, .fail "m"⟩ "/p" .nilReq 0).events = [] ∧
    (post ⟨"t", "b", true⟩ ⟨true, false, none, none, .fail "m"⟩ "/p" .nilReq 0).result =
      .err .canceled :=
  ⟨(C7_cancel_no_permit ⟨"t", "b", true⟩ ⟨true, false, none, none, .fail "m"⟩ "/p"
      .nilReq rfl rfl).1.1,
    (C7_cancel_no_permit ⟨"t", "b", true⟩ ⟨true, false, none, none, .fail "m"⟩ "/p"
      .nilReq rfl rfl).1.2.2,
    ((C7_cancel_no_permit ⟨"t", "b", true⟩ ⟨true, false, none, none, .fail "m"⟩ "/p"
      .nilReq rfl rfl).2.2 rfl).1⟩

/-- C4: the flattener emits each struct field under its json-tag name,
falling back to the field's own name when no tag is declared; integer
fields render as base-10 digit strings, float fields render fixed-point
with exactly four digits after the decimal point, byte-slice and string
fields render as-is; and a field whose rendered value is empty contributes
no key (no empty-valued key ever appears in the result). -/
theorem C4_flattener_spec (fs : List Field) :
    (∀ kv ∈ toValues (.structReq fs), kv.2 ≠ "" ∧
      ∃ f, f ∈ fs ∧ kv.1 = fieldKey f ∧ kv.2 = renderField f.value) ∧
    (∀ f ∈ fs, renderField f.value ≠ "" →
      (Values.get? (toValues (.structReq fs)) (fieldKey f)).isSome = true) ∧
    (∀ f : Field, fieldKey f = if f.jsonTag = "" then f.name else f.jsonTag) ∧
    (∀ n : Int, renderField (.intV n) = formatInt n ∧ formatInt n ≠ "" ∧
      (0 ≤ n → ∀ c ∈ (formatInt n).toList, c.isDigit = true) ∧
      (n < 0 → formatInt n = "-" ++ natToDec n.natAbs)) ∧
    (∀ n : Nat, renderField (.uintV n) = natToDec n ∧ natToDec n ≠ "" ∧
      ∀ c ∈ (natToDec n).toList, c.isDigit = true) ∧
    (∀ q : Rat, ∃ pre post : String,
      renderField (.float64V q) = pre ++ "." ++ post ∧
      renderField (.float32V q) = pre ++ "." ++ post ∧
      post.length = 4 ∧ ∀ c ∈ post.toList, c.isDigit = true) ∧
    (∀ s : String, renderField (.strV s) = s ∧ renderField (.bytesV s) = s) := by
  refine ⟨?_, ?_, fun f => rfl, ?_, ?_, ?_, fun s => ⟨rfl, rfl⟩⟩
  · intro kv hkv
    have h := flatten_mem fs [] kv (by simpa [toValues] using hkv)
    rcases h with h | ⟨f, hf, h1, h2, h3⟩
    · simp at h
    · exact ⟨by rw [h2]; exact h3, f, hf, h1, h2⟩
  · intro f hf hr
    have := flatten_present fs [] f hf hr
    simpa [toValues] using this
  · intro n
    refine ⟨rfl, ?_, ?_, ?_⟩
    · unfold formatInt
      split
      · exact dash_append_ne_empty _
      · exact natToDec_ne_empty _
    · intro hn c hc
      have h0 : ¬ n < 0 := by omega
      rw [formatInt, if_neg h0] at hc
      exact natToDec_digits _ c hc
    · intro hn
      rw [formatInt, if_pos hn]
  · exact fun n => ⟨rfl, natToDec_ne_empty n, natToDec_digits n⟩
  · intro q
    refine ⟨(if q < 0 then "-" else "") ++ natToDec (roundScaled4 |q| / 10000),
      String.mk [digitChar (roundScaled4 |q| % 10000 / 1000),
        digitChar (roundScaled4 |q| % 10000 / 100),
        digitChar (roundScaled4 |q| % 10000 / 10),
        digitChar (roundScaled4 |q| % 10000)], rfl, rfl, rfl, ?_⟩
    intro c hc
    have hc' : c ∈ [digitChar (roundScaled4 |q| % 10000 / 1000),
        digitChar (roundScaled4 |q| % 10000 / 100),
        digitChar (roundScaled4 |q| % 10000 / 10),
        digitChar (roundScaled4 |q| % 10000)] := hc
    simp only [List.mem_cons, List.not_mem_nil, or_false] at hc'
    rcases hc' with rfl | rfl | rfl | rfl <;> exact digitChar_isDigit _

theorem C4_witness :
    ("name", "Party") ∈ toValues (.structReq [⟨"Name", "name", false, .strV "Party"⟩,
      ⟨"Status", "status", false, .strV ""⟩]) ∧
    (("name", "Party") : String × String).2 ≠ "" :=
  ⟨by decide, ((C4_flattener_spec [⟨"Name", "name", false, .strV "Party"⟩,
      ⟨"Status", "status", false, .strV ""⟩]).1 ("name", "Party") (by decide)).1⟩

/-- C1 (amended): with an empty configured token no executor ever invokes
the transport and no call ever succeeds, for all paths, descriptors and
environments; and whenever no earlier pipeline step fails first (no
cancellation or blocking, descriptor validation passes, request
construction and body marshalling succeed) the returned error is precisely
the missing-token error.  As literally stated the claim is false — an
earlier step can fail with a different error — see the counterexample. -/
theorem C1_emptyToken_noTransport (c : Client) (env : Env) (path : String) (req : ApiReq)
    (permits : Nat) (htok : c.token = "") :
    (∀ ev ∈ (get c env path req permits).events, ev.isTransport = false) ∧
    (∀ ev ∈ (post c env path req permits).events, ev.isTransport = false) ∧
    (∀ ev ∈ (delete c env path permits).events, ev.isTransport = false) ∧
    (∀ r, (get c env path req permits).result ≠ .ok r) ∧
    (∀ r, (post c env path req permits).result ≠ .ok r) ∧
    (∀ r, (delete c env path permits).result ≠ .ok r) ∧
    (env.ctxDone = false → (c.hasLimiter = true → 0 < permits) →
      validateIfPresent req = none → env.newRequestErr = none →
      (get c env path req permits).result = .err .tokenMissing ∧
      (env.marshalErr = none →
        (post c env path req permits).result = .err .tokenMissing) ∧
      (delete c env path permits).result = .err .tokenMissing) := by
  have hg := get_noToken_shape c env path req permits htok
  have hp := post_noToken_shape c env path req permits htok
  have hd := delete_noToken_shape c env path permits htok
  have evlem : ∀ l : List Event, (l = [] ∨ l = [Event.permitConsumed]) →
      ∀ ev ∈ l, ev.isTransport = false := by
    rintro l (rfl | rfl) ev hev
    · simp at hev
    · have h : ev = Event.permitConsumed := by simpa using hev
      rw [h]; rfl
  refine ⟨evlem _ hg.1, evlem _ hp.1, evlem _ hd.1, hg.2, hp.2, hd.2, ?_⟩
  intro hdone hperm hval hnr
  exact ⟨get_noToken_result c env path req permits htok hdone hperm hval hnr,
    fun hmar => post_noToken_result c env path req permits htok hdone hperm hval hmar hnr,
    delete_noToken_result c env path permits htok hdone hperm hnr⟩

/-- C1 counterexample: a GET through a client with an empty token but an
invalid descriptor returns the validation error, not the missing-token
error, refuting the claim as literally stated (the transport is still
never invoked). -/
theorem C1_counterexample :
    (get ⟨"", "https://example.test", false⟩ ⟨false, false, none, none, .fail "unused"⟩
      "/events/" (.structReq [⟨"Id", "id", true, .strV ""⟩]) 0).result =
      .err (.validationFailed "Id") ∧
    (get ⟨"", "https://example.test", false⟩ ⟨false, false, none, none, .fail "unused"⟩
      "/events/" (.structReq [⟨"Id", "id", true, .strV ""⟩]) 0).result ≠
      .err .tokenMissing ∧
    (get ⟨"", "https://example.test", false⟩ ⟨false, false, none, none, .fail "unused"⟩
      "/events/" (.structReq [⟨"Id", "id", true, .strV ""⟩]) 0).events = [] :=
  ⟨by decide, by decide, by decide⟩

theorem C1_witness :
    (get ⟨"", "b", false⟩ ⟨false, false, none, none, .fail "m"⟩ "/p" .nilReq 0).result =
      .err .tokenMissing :=
  ((C1_emptyToken_noTransport ⟨"", "b", false⟩ ⟨false, false, none, none, .fail "m"⟩
      "/p" .nilReq 0 rfl).2.2.2.2.2.2 rfl (by decide) rfl rfl).1

/-- C2: for a GET whose HTTP round trip succeeds: on status 200 the body
is decoded into the caller-supplied result and the call returns it (a
decode failure becomes a decode error); on any other status the body is
decoded as the structured error envelope which is returned as the call's
error, and a failure to decode the envelope itself is swallowed, yielding
the zero-valued envelope instead of a decode error. -/
theorem C2_getJSON_status_branch {α : Type} (c : Client) (env : Env)
    (decodeBody : String → Except String α) (decodeErrBody : String → Option Error)
    (path : String) (req : ApiReq) (permits : Nat) (resp : HttpResponse)
    (htok : c.token ≠ "") (hdone : env.ctxDone = false)
    (hperm : c.hasLimiter = true → 0 < permits)
    (hval : validateIfPresent req = none) (hnr : env.newRequestErr = none)
    (htr : env.transport = .ok resp) :
    (resp.statusCode = 200 →
      (getJSON c env decodeBody decodeErrBody path req permits).result =
        match decodeBody resp.body with
        | .ok a => .ok a
        | .error m => .err (.decodeFailed m)) ∧
    (resp.statusCode ≠ 200 →
      (getJSON c env decodeBody decodeErrBody path req permits).result =
        .err (.apiError ((decodeErrBody resp.body).getD Error.zero))) ∧
    (resp.statusCode ≠ 200 → decodeErrBody resp.body = none →
      (getJSON c env decodeBody decodeErrBody path req permits).result =
        .err (.apiError Error.zero)) := by
  have hg := get_pipeline c env path req permits hdone hperm hval hnr htok
  rw [htr] at hg
  refine ⟨fun h200 => ?_, fun hne => ?_, fun hne hdec => ?_⟩
  · unfold getJSON
    rw [hg]
    cases h : decodeBody resp.body <;> simp [h200, h]
  · unfold getJSON
    rw [hg]
    simp [hne]
  · unfold getJSON
    rw [hg]
    simp [hne, hdec]

theorem C2_witness :
    (getJSON ⟨"t", "b", false⟩ ⟨false, false, none, none, .ok ⟨200, "x"⟩⟩
      (fun _ => Except.ok 1) (fun _ => none) "/p" .nilReq 0).result = .ok 1 ∧
    (getJSON ⟨"t", "b", false⟩ ⟨false, false, none, none, .ok ⟨404, "y"⟩⟩
      (fun _ => Except.ok 1) (fun _ => none) "/p" .nilReq 0).result =
      .err (.apiError Error.zero) :=
  ⟨(C2_getJSON_status_branch ⟨"t", "b", false⟩ ⟨false, false, none, none, .ok ⟨200, "x"⟩⟩
      (fun _ => Except.ok 1) (fun _ => none) "/p" .nilReq 0 ⟨200, "x"⟩ (by decide) rfl
      (by decide) rfl rfl rfl).1 rfl,
    (C2_getJSON_status_branch ⟨"t", "b", false⟩ ⟨false, false, none, none, .ok ⟨404, "y"⟩⟩
      (fun _ => Except.ok 1) (fun _ => none) "/p" .nilReq 0 ⟨404, "y"⟩ (by decide) rfl
      (by decide) rfl rfl rfl).2.2 (by decide) rfl⟩

/-- C3: for POST and DELETE calls whose HTTP round trip succeeds, the
response body is decoded into the caller-supplied result unconditionally,
with no branching on the status code; a non-200 response never yields a
structured API error from these two executors — the only post-transport
error they can return is a decode error. -/
theorem C3_postDelete_unconditional_decode {α : Type} (c : Client) (env : Env)
    (decodeBody : String → Except String α) (path : String) (req : ApiReq)
    (permits : Nat) (resp : HttpResponse)
    (htok : c.token ≠ "") (hdone : env.ctxDone = false)
    (hperm : c.hasLimiter = true → 0 < permits)
    (hval : validateIfPresent req = none) (hmar : env.marshalErr = none)
    (hnr : env.newRequestErr = none) (htr : env.transport = .ok resp) :
    ((postJSON c env decodeBody path req permits).result =
      match decodeBody resp.body with
      | .ok a => .ok a
      | .error m => .err (.decodeFailed m)) ∧
    ((deleteJSON c env decodeBody path permits).result =
      match decodeBody resp.body with
      | .ok a => .ok a
      | .error m => .err (.decodeFailed m)) ∧
    (∀ e : Error,
      (postJSON c env decodeBody path req permits).result ≠ .err (.apiError e)) ∧
    (∀ e : Error,
      (deleteJSON c env decodeBody path permits).result ≠ .err (.apiError e)) := by
  have hp := post_pipeline c env path req permits hdone hperm hval hmar hnr htok
  have hd := delete_pipeline c env path permits hdone hperm hnr htok
  rw [htr] at hp hd
  have h1 : (postJSON c env decodeBody path req permits).result =
      match decodeBody resp.body with
      | .ok a => .ok a
      | .error m => ExecResult.err (.decodeFailed m) := by
    unfold postJSON
    rw [hp]
    cases h : decodeBody resp.body <;> simp [h]
  have h2 : (deleteJSON c env decodeBody path permits).result =
      match decodeBody resp.body with
      | .ok a => .ok a
      | .error m => ExecResult.err (.decodeFailed m) := by
    unfold deleteJSON
    rw [hd]
    cases h : decodeBody resp.body <;> simp [h]
  refine ⟨h1, h2, fun e => ?_, fun e => ?_⟩
  · rw [h1]
    cases decodeBody resp.body <;> simp
  · rw [h2]
    cases decodeBody resp.body <;> simp

theorem C3_witness :
    (postJSON ⟨"t", "b", false⟩ ⟨false, false, none, none, .ok ⟨404, "y"⟩⟩
      (fun _ => Except.ok 1) "/p" .nilReq 0).result = .ok 1 ∧
    (deleteJSON ⟨"t", "b", false⟩ ⟨false, false, none, none, .ok ⟨404, "y"⟩⟩
      (fun _ => Except.ok 1) "/p" 0).result = .ok 1 :=
  ⟨(C3_postDelete_unconditional_decode ⟨"t", "b", false⟩
      ⟨false, false, none, none, .ok ⟨404, "y"⟩⟩ (fun _ => Except.ok 1) "/p" .nilReq 0
      ⟨404, "y"⟩ (by decide) rfl (by decide) rfl rfl rfl rfl).1,
    (C3_postDelete_unconditional_decode ⟨"t", "b", false⟩
      ⟨false, false, none, none, .ok ⟨404, "y"⟩⟩ (fun _ => Except.ok 1) "/p" .nilReq 0
      ⟨404, "y"⟩ (by decide) rfl (by decide) rfl rfl rfl rfl).2.1⟩

/-- C5 counterexample: a concrete POST through a client with a configured
token produces a query string that does contain the response-expansion
parameter, refuting the claim that POST queries lack it. -/
theorem C5_counterexample :
    (post ⟨"abc", "http://test.local", true⟩ ⟨false, false, none, none, .ok ⟨200, "body"⟩⟩
      "/x" .nilReq 5).events =
      [.permitConsumed, .transported "POST" "http://test.local/x"
        "expand=venue%2Ccategory%2Csubcategories&token=abc"] ∧
    queryHasParam "expand=venue%2Ccategory%2Csubcategories&token=abc" "expand" = true ∧
    queryHasParam "expand=venue%2Ccategory%2Csubcategories&token=abc" "token" = true :=
  ⟨by decide, by decide, by decide⟩

/-- C5 (amended): for every POST reaching the transport with a nonempty
token, the query string appended to the request URL is the encoding of the
auth values, which contain both the token parameter and the
response-expansion parameter — generateAuthQuery sets both for every verb,
so POST does carry the expansion parameter, contrary to the claim as
literally stated (see the counterexample). -/
theorem C5_post_query_token_and_expand (c : Client) (env : Env) (path : String)
    (req : ApiReq) (permits : Nat)
    (htok : c.token ≠ "") (hdone : env.ctxDone = false)
    (hperm : c.hasLimiter = true → 0 < permits)
    (hval : validateIfPresent req = none) (hmar : env.marshalErr = none)
    (hnr : env.newRequestErr = none) :
    (post c env path req permits).events =
      (if c.hasLimiter then [Event.permitConsumed] else []) ++
        [.transported "POST" (hostOf c path ++ path) (Values.encode (authValues c []))] ∧
    Values.get? (authValues c []) "token" = some c.token ∧
    Values.get? (authValues c []) "expand" = some "venue,category,subcategories" := by
  have hp := post_pipeline c env path req permits hdone hperm hval hmar hnr htok
  refine ⟨by rw [hp], ?_, ?_⟩
  · simp [authValues, Values.set, Values.get?]
  · simp [authValues, Values.set, Values.get?]

theorem C5_witness :
    Values.get? (authValues ⟨"abc", "http://test.local", true⟩ []) "token" = some "abc" ∧
    Values.get? (authValues ⟨"abc", "http://test.local", true⟩ []) "expand" =
      some "venue,category,subcategories" :=
  ⟨(C5_post_query_token_and_expand ⟨"abc", "http://test.local", true⟩
      ⟨false, false, none, none, .ok ⟨200, "body"⟩⟩ "/x" .nilReq 5 (by decide) rfl
      (by decide) rfl rfl rfl).2.1,
    (C5_post_query_token_and_expand ⟨"abc", "http://test.local", true⟩
      ⟨false, false, none, none, .ok ⟨200, "body"⟩⟩ "/x" .nilReq 5 (by decide) rfl
      (by decide) rfl rfl rfl).2.2⟩

/-- C6 counterexample: a GET with an invalid descriptor through a client
with a rate limiter consumes a permit (3 drops to 2) even though
validation fails, refuting the claim that validation executes strictly
before a permit is consumed for GET. -/
theorem C6_counterexample :
    (get ⟨"t", "b", true⟩ ⟨false, false, none, none, .fail "unused"⟩ "/p"
      (.structReq [⟨"Id", "id", true, .strV ""⟩]) 3).result =
      .err (.validationFailed "Id") ∧
    (get ⟨"t", "b", true⟩ ⟨false, false, none, none, .fail "unused"⟩ "/p"
      (.structReq [⟨"Id", "id", true, .strV ""⟩]) 3).permits = 2 ∧
    (get ⟨"t", "b", true⟩ ⟨false, false, none, none, .fail "unused"⟩ "/p"
      (.structReq [⟨"Id", "id", true, .strV ""⟩]) 3).events = [.permitConsumed] :=
  ⟨by decide, by decide, by decide⟩

/-- C6 (amended): for POST, descriptor validation runs strictly before the
rate limiter, so a POST failing validation consumes no permit and issues
no request; for GET the source consumes the permit first, so a GET failing
validation has already consumed one permit when a limiter is configured —
in both cases validation failure prevents any HTTP request. -/
theorem C6_validation_order (c : Client) (env : Env) (path : String)
    (fs : List Field) (permits : Nat) (e : GoErr)
    (hval : validateStruct (.structReq fs) = some e) :
    ((post c env path (.structReq fs) permits).result = .err e ∧
      (post c env path (.structReq fs) permits).permits = permits ∧
      (post c env path (.structReq fs) permits).events = []) ∧
    (env.ctxDone = false → (c.hasLimiter = true → 0 < permits) →
      (get c env path (.structReq fs) permits).result = .err e ∧
      (get c env path (.structReq fs) permits).permits =
        (if c.hasLimiter then permits - 1 else permits) ∧
      (get c env path (.structReq fs) permits).events =
        (if c.hasLimiter then [Event.permitConsumed] else []) ∧
      ∀ ev ∈ (get c env path (.structReq fs) permits).events,
        ev.isTransport = false) := by
  have hvp : validateIfPresent (.structReq fs) = some e := hval
  constructor
  · unfold post
    rw [hvp]
    exact ⟨rfl, rfl, rfl⟩
  · intro hdone hperm
    unfold get
    rw [hdone, awaitRateLimiter_ok c env.tieDone permits hperm]
    cases hc : c.hasLimiter <;> simp [hc, hvp, Event.isTransport]

theorem C6_witness :
    (post ⟨"t", "b", true⟩ ⟨false, false, none, none, .fail "m"⟩ "/p"
      (.structReq [⟨"Id", "id", true, .strV ""⟩]) 3).permits = 3 ∧
    (get ⟨"t", "b", true⟩ ⟨false, false, none, none, .fail "m"⟩ "/p"
      (.structReq [⟨"Id", "id", true, .strV ""⟩]) 3).permits = 2 :=
  ⟨(C6_validation_order ⟨"t", "b", true⟩ ⟨false, false, none, none, .fail "m"⟩ "/p"
      [⟨"Id", "id", true, .strV ""⟩] 3 (.validationFailed "Id") (by decide)).1.2.1,
    ((C6_validation_order ⟨"t", "b", true⟩ ⟨false, false, none, none, .fail "m"⟩ "/p"
      [⟨"Id", "id", true, .strV ""⟩] 3 (.validationFailed "Id") (by decide)).2 rfl
      (by decide)).2.1⟩

end Eventbrite
